import Mathlib

/-!
# Jarvis-IA: verification of the authorization and state-lifecycle engine

Shallow embedding of the Jarvis-IA core components (Permission Gate,
Approval Ledger, Memory Lifecycle Manager, Skill Store, PII Redactor) and
of the Chat page of the React frontend, with theorems checking the
natural-language specification against them.

The repository snapshot under verification ships only the frontend
(`Chat.js`, `MemoryViewer.js`, `SkillCard.js`, `ApprovalDialog.js`,
`Dashboard.js`, `App.js`) together with `README.md` and `SECURITY.md`;
the backend modules (`core/permission_gate.py`, `modules/memory.py`,
`modules/skills.py`, the approval ledger, the PII masker) are declared in
the README file tree but their code is not in the snapshot.  Definitions
for those components are therefore modelled from the specification text
(each such definition says so in its doc comment); the frontend
definitions are translated directly from the JavaScript source.
-/

/-! ## Permission Gate -/

/-- The three permission levels of the Permission Context (spec §3);
they also appear verbatim as the selector options in `Chat.js`. -/
inductive PermissionLevel
  | READ_ONLY
  | DRAFT_ONLY
  | EXECUTE_APPROVED
deriving DecidableEq, Repr

/-- The decision type of the Permission Gate (spec §4.2). -/
inductive Decision
  | REJECTED
  | EXECUTE_DIRECT
  | REQUIRES_APPROVAL
deriving DecidableEq, Repr

/-- The fixed action allowlist, copied from `README.md` ("Ações
Permitidas", the `ALLOWED_ACTIONS` python list) — identical to the
action vocabulary of spec §6. -/
def ALLOWED_ACTIONS : List String :=
  ["read_memory", "write_memory", "search_memory", "create_skill",
   "update_skill", "search_skills", "create_note", "read_notes",
   "update_note", "delete_note", "create_task", "read_tasks",
   "update_task", "complete_task", "search_database", "query_database"]

/-- Boolean test that `p` is an initial segment of `w`. -/
def startsWith : List Char → List Char → Bool
  | [], _ => true
  | _ :: _, [] => false
  | p :: ps, c :: cs => (p = c) && startsWith ps cs

/-- Modelled from the spec: classification of read-only actions
(spec §4.2 step 2: the `read_*`, `search_*`, `query_*` families).  The
backend module `core/permission_gate.py` is absent from the snapshot. -/
def isReadOnlyAction (a : String) : Bool :=
  startsWith "read_".data a.data || startsWith "search_".data a.data ||
  startsWith "query_".data a.data

/-- Modelled from the spec: the Permission Gate decision function
`evaluate(action_type, permission_level)` of spec §4.2 (the backend
module `core/permission_gate.py` is absent from the snapshot).
Step 1: any action outside `ALLOWED_ACTIONS` is rejected; step 2:
`READ_ONLY` rejects everything that is not read-only; step 3:
`DRAFT_ONLY` never returns `EXECUTE_DIRECT` and maps actions to
`REQUIRES_APPROVAL`; step 4: `EXECUTE_APPROVED` executes reads directly
and requires approval for every other allowed action. -/
def evaluate (action_type : String) (pl : PermissionLevel) : Decision :=
  if action_type ∈ ALLOWED_ACTIONS then
    match pl with
    | PermissionLevel.READ_ONLY =>
        if isReadOnlyAction action_type then Decision.EXECUTE_DIRECT
        else Decision.REJECTED
    | PermissionLevel.DRAFT_ONLY => Decision.REQUIRES_APPROVAL
    | PermissionLevel.EXECUTE_APPROVED =>
        if isReadOnlyAction action_type then Decision.EXECUTE_DIRECT
        else Decision.REQUIRES_APPROVAL
  else Decision.REJECTED

/-- Modelled from the spec: whether a recorded approval decision leads to
execution of the proposed action (spec §4.3: "Approval is
advisory-execution-gating only for `EXECUTE_APPROVED`; under
`DRAFT_ONLY`, `approved=true` is recorded but the action is never
executed"; spec §4.2 step 3).  The backend execution path is absent from
the snapshot. -/
def executesAfterApproval (pl : PermissionLevel) (approved : Bool) : Bool :=
  match pl with
  | PermissionLevel.EXECUTE_APPROVED => approved
  | PermissionLevel.READ_ONLY => false
  | PermissionLevel.DRAFT_ONLY => false

/-- C1: any `action_type` outside `ALLOWED_ACTIONS` is `REJECTED` by
`evaluate`, whatever the `permission_level`; absence from the allowlist
alone forces rejection. -/
theorem not_allowed_is_rejected (a : String) (pl : PermissionLevel)
    (h : a ∉ ALLOWED_ACTIONS) : evaluate a pl = Decision.REJECTED := by
  simp [evaluate, h]

/-- Witness for C1 at the concrete unknown action `"run_shell"`. -/
theorem not_allowed_is_rejected_witness :
    "run_shell" ∉ ALLOWED_ACTIONS ∧
      evaluate "run_shell" PermissionLevel.EXECUTE_APPROVED =
        Decision.REJECTED :=
  ⟨by decide, not_allowed_is_rejected "run_shell"
    PermissionLevel.EXECUTE_APPROVED (by decide)⟩

/-- C2: under `DRAFT_ONLY`, every allowed mutating (non-read) action gets
`REQUIRES_APPROVAL` (in particular never `EXECUTE_DIRECT`), and no
recorded approval decision — `approved = true` included — ever executes
the proposed action: `DRAFT_ONLY` is a hard ceiling. -/
theorem draft_only_never_executes (a : String) (h1 : a ∈ ALLOWED_ACTIONS)
    (h2 : isReadOnlyAction a = false) :
    evaluate a PermissionLevel.DRAFT_ONLY = Decision.REQUIRES_APPROVAL ∧
      evaluate a PermissionLevel.DRAFT_ONLY ≠ Decision.EXECUTE_DIRECT ∧
      ∀ approved : Bool,
        executesAfterApproval PermissionLevel.DRAFT_ONLY approved = false := by
  refine ⟨by simp [evaluate, h1], by simp [evaluate, h1], ?_⟩
  intro approved
  rfl

/-- Witness for C2 at the allowed mutating action `"create_note"`. -/
theorem draft_only_never_executes_witness :
    "create_note" ∈ ALLOWED_ACTIONS ∧
      isReadOnlyAction "create_note" = false ∧
      evaluate "create_note" PermissionLevel.DRAFT_ONLY =
        Decision.REQUIRES_APPROVAL :=
  ⟨by decide, by decide,
    (draft_only_never_executes "create_note" (by decide) (by decide)).1⟩

/-! ## Approval Ledger -/

/-- Error raised by the Approval Ledger on a payload hash mismatch
(spec §7 taxonomy). -/
inductive ApprovalError
  | IntegrityError
deriving DecidableEq, Repr

/-- An Approval Record (spec §3): immutable once written. -/
structure ApprovalRecord where
  id : Nat
  user_id : String
  action_type : String
  payload_hash : Nat
  approved : Bool
  decided_at : Nat
deriving DecidableEq, Repr

/-- Modelled from the spec: the stable hash computed over the
canonicalized payload (spec §4.3, `propose` "computes a stable hash over
canonicalized payload"); the backend ledger module is absent from the
snapshot.  A deterministic polynomial rolling hash over the payload
characters, reduced modulo 2^64. -/
def payloadHash (payload : String) : Nat :=
  payload.data.foldl (fun h c => (h * 131 + c.toNat) % 18446744073709551616) 5381

/-- Modelled from the spec: `propose(action_type, payload)` of spec §4.3,
pure, returning the proposal triple with its payload-integrity hash. -/
def propose (action_type payload : String) : String × String × Nat :=
  (action_type, payload, payloadHash payload)

/-- Modelled from the spec: `record(user_id, action_type, payload,
approved)` of spec §4.3 (the backend ledger module is absent from the
snapshot).  It recomputes the payload hash and persists a new immutable
`ApprovalRecord` only when the hash supplied at proposal time matches
exactly; on mismatch it fails with `IntegrityError` and leaves the
ledger unchanged.  Returns the outcome together with the resulting
ledger. -/
def record (ledger : List ApprovalRecord)
    (user_id action_type payload : String) (supplied_hash : Nat)
    (approved : Bool) (now : Nat) :
    Except ApprovalError ApprovalRecord × List ApprovalRecord :=
  let h := payloadHash payload
  if supplied_hash = h then
    let entry : ApprovalRecord :=
      { id := ledger.length, user_id := user_id, action_type := action_type,
        payload_hash := h, approved := approved, decided_at := now }
    (Except.ok entry, ledger ++ [entry])
  else (Except.error ApprovalError.IntegrityError, ledger)

/-- C3: whenever the hash supplied by the caller differs from the hash
recomputed over the supplied payload, `record` fails with
`IntegrityError` and the ledger is exactly what it was before the call
— nothing is persisted. -/
theorem record_integrity (ledger : List ApprovalRecord)
    (user_id action_type payload : String) (supplied_hash : Nat)
    (approved : Bool) (now : Nat)
    (h : supplied_hash ≠ payloadHash payload) :
    (record ledger user_id action_type payload supplied_hash approved now).1 =
        Except.error ApprovalError.IntegrityError ∧
      (record ledger user_id action_type payload supplied_hash approved now).2 =
        ledger := by
  simp [record, h]

/-- Witness for C3: recording with an off-by-one hash on an empty ledger
fails with `IntegrityError` and persists nothing. -/
theorem record_integrity_witness :
    (record [] "default_user" "create_note" "note body"
          (payloadHash "note body" + 1) true 0).1 =
        Except.error ApprovalError.IntegrityError ∧
      (record [] "default_user" "create_note" "note body"
          (payloadHash "note body" + 1) true 0).2 = [] :=
  record_integrity [] "default_user" "create_note" "note body"
    (payloadHash "note body" + 1) true 0 (Nat.succ_ne_self _)

/-! ## Memory Lifecycle Manager -/

/-- The three memory tiers (spec §3; displayed as hot/cold/archive in
`MemoryViewer.js`). -/
inductive Tier
  | HOT
  | COLD
  | ARCHIVE
deriving DecidableEq, Repr

/-- A Memory Record (spec §3): `expires_at` is optional (HOT only) and
`archived_reason` is optional (ARCHIVE only) — both fields are exactly
the ones `MemoryViewer.js` renders conditionally per tier. -/
structure MemoryRecord where
  id : Nat
  user_id : String
  key : String
  value : String
  tags : List String
  created_at : Nat
  expires_at : Option Nat
  archived_reason : Option String
  renewed_count : Nat
  tier : Tier
deriving DecidableEq, Repr

/-- The tier invariant of spec §3: `HOT ⇒ expires_at present`,
`ARCHIVE ⇒ archived_reason present`, `COLD ⇒ expires_at absent`. -/
def tierInvariant (r : MemoryRecord) : Bool :=
  (if r.tier = Tier.HOT then r.expires_at.isSome else true) &&
  (if r.tier = Tier.ARCHIVE then r.archived_reason.isSome else true) &&
  (if r.tier = Tier.COLD then r.expires_at.isNone else true)

/-- The HOT TTL of 7 days (spec §4.4), in seconds. -/
def sevenDays : Nat := 604800

/-- A record is expired when it is HOT and `now > expires_at`
(spec §4.4, inline expiry policy). -/
def isExpired (now : Nat) (r : MemoryRecord) : Bool :=
  r.tier = Tier.HOT &&
    match r.expires_at with
    | some e => decide (e < now)
    | none => false

/-- Modelled from the spec: inline expiry of a single record (spec §4.4:
"the record is moved to ARCHIVE with `archived_reason = \x22expired\x22`
synchronously, as part of the same call"); the backend module
`modules/memory.py` is absent from the snapshot. -/
def expireIfNeeded (now : Nat) (r : MemoryRecord) : MemoryRecord :=
  if isExpired now r then
    { r with tier := Tier.ARCHIVE, archived_reason := some "expired" }
  else r

/-- Modelled from the spec: the inline-expiry pass every read path
applies to the store before answering (spec §4.4). -/
def inlineExpiry (now : Nat) (store : List MemoryRecord) : List MemoryRecord :=
  store.map (expireIfNeeded now)

/-- Modelled from the spec: `ingest(key, value, tags)` of spec §4.4 —
creates a HOT record with `expires_at = now + 7d`; the backend module
`modules/memory.py` is absent from the snapshot.  Returns the new record
and the resulting store. -/
def ingest (store : List MemoryRecord) (uid key value : String)
    (tags : List String) (now : Nat) : MemoryRecord × List MemoryRecord :=
  let r : MemoryRecord :=
    { id := store.length, user_id := uid, key := key, value := value,
      tags := tags, created_at := now, expires_at := some (now + sevenDays),
      archived_reason := none, renewed_count := 0, tier := Tier.HOT }
  (r, store ++ [r])

/-- Modelled from the spec: the effect of `touch(id)` on the touched
record (spec §4.4): a HOT, unexpired record is renewed
(`expires_at = now + 7d`, `renewed_count += 1`); a HOT record with
`now > expires_at` undergoes inline expiry instead. -/
def touchRecord (now : Nat) (r : MemoryRecord) : MemoryRecord :=
  if r.tier = Tier.HOT then
    match r.expires_at with
    | some e =>
        if e < now then
          { r with tier := Tier.ARCHIVE, archived_reason := some "expired" }
        else
          { r with expires_at := some (now + sevenDays),
                   renewed_count := r.renewed_count + 1 }
    | none => r
  else r

/-- Modelled from the spec: `touch(id)` over the store (spec §4.4). -/
def touch (store : List MemoryRecord) (id : Nat) (now : Nat) :
    List MemoryRecord :=
  store.map (fun r => if r.id = id then touchRecord now r else r)

/-- Modelled from the spec: the effect of `promote(id)` on the promoted
record (spec §4.4): HOT → COLD, clearing `expires_at`. -/
def promoteRecord (r : MemoryRecord) : MemoryRecord :=
  if r.tier = Tier.HOT then
    { r with tier := Tier.COLD, expires_at := none }
  else r

/-- Modelled from the spec: `promote(id)` over the store (spec §4.4). -/
def promote (store : List MemoryRecord) (id : Nat) : List MemoryRecord :=
  store.map (fun r => if r.id = id then promoteRecord r else r)

/-- Modelled from the spec: the effect of `archive(id, reason)` on the
archived record (spec §4.4): COLD or HOT → ARCHIVE, setting
`archived_reason`; an already-ARCHIVE record is terminal and is left
untouched. -/
def archiveRecord (reason : String) (r : MemoryRecord) : MemoryRecord :=
  if r.tier = Tier.ARCHIVE then r
  else { r with tier := Tier.ARCHIVE, archived_reason := some reason }

/-- Modelled from the spec: `archive(id, reason)` over the store
(spec §4.4). -/
def archive (store : List MemoryRecord) (id : Nat) (reason : String) :
    List MemoryRecord :=
  store.map (fun r => if r.id = id then archiveRecord reason r else r)

/-- Modelled from the spec: `list(tier, user_id)` of spec §4.4 — applies
inline expiry first, then filters by tier and owner; returns the result
set and the post-call store. -/
def listTier (store : List MemoryRecord) (t : Tier) (uid : String)
    (now : Nat) : List MemoryRecord × List MemoryRecord :=
  let store2 := inlineExpiry now store
  (store2.filter (fun r => r.tier = t && r.user_id = uid), store2)

/-- Modelled from the spec: `search(tier, query)` of spec §4.4 — applies
inline expiry first, then filters by tier and a keyword match on key or
tags; returns the result set and the post-call store. -/
def searchTier (store : List MemoryRecord) (t : Tier) (q : String)
    (now : Nat) : List MemoryRecord × List MemoryRecord :=
  let store2 := inlineExpiry now store
  (store2.filter (fun r => r.tier = t && (r.key = q || r.tags.contains q)),
   store2)

/-- The closed vocabulary of Memory Lifecycle Manager operations, each
timestamped with the `now` of its call (spec §4.4: transitions are
triggered only by explicit calls, no timers). -/
inductive MemOp
  | ingestOp (uid key value : String) (tags : List String)
  | touchOp (id : Nat)
  | promoteOp (id : Nat)
  | archiveOp (id : Nat) (reason : String)
  | listOp (t : Tier) (uid : String)
  | searchOp (t : Tier) (q : String)

/-- The store after one Memory Lifecycle Manager operation. -/
def applyOp (store : List MemoryRecord) (op : MemOp) (now : Nat) :
    List MemoryRecord :=
  match op with
  | MemOp.ingestOp uid key value tags => (ingest store uid key value tags now).2
  | MemOp.touchOp id => touch store id now
  | MemOp.promoteOp id => promote store id
  | MemOp.archiveOp id reason => archive store id reason
  | MemOp.listOp t uid => (listTier store t uid now).2
  | MemOp.searchOp t q => (searchTier store t q now).2

/-- The store after a sequence of timestamped operations. -/
def applyOps (store : List MemoryRecord) (ops : List (MemOp × Nat)) :
    List MemoryRecord :=
  ops.foldl (fun s p => applyOp s p.1 p.2) store

/-- The properties shared by every per-record update the Memory Lifecycle
Manager performs: the record id is preserved, ARCHIVE records are
terminal (left untouched), and the tier invariant is preserved. -/
def goodUpdater (g : MemoryRecord → MemoryRecord) : Prop :=
  (∀ x, (g x).id = x.id) ∧
  (∀ x, x.tier = Tier.ARCHIVE → g x = x) ∧
  (∀ x, tierInvariant x = true → tierInvariant (g x) = true)

theorem expireIfNeeded_good (now : Nat) : goodUpdater (expireIfNeeded now) := by
  refine ⟨?_, ?_, ?_⟩
  · intro x; unfold expireIfNeeded; split <;> rfl
  · intro x hx
    have h : isExpired now x = false := by simp [isExpired, hx]
    simp [expireIfNeeded, h]
  · intro x hx; unfold expireIfNeeded
    split
    · simp [tierInvariant]
    · exact hx

theorem touchRecord_good (now : Nat) : goodUpdater (touchRecord now) := by
  refine ⟨?_, ?_, ?_⟩
  · intro x; unfold touchRecord
    split
    · split
      · split <;> rfl
      · rfl
    · rfl
  · intro x hx
    have h : x.tier = Tier.HOT → False := by rw [hx]; intro h; cases h
    simp [touchRecord, hx]
  · intro x hx; unfold touchRecord
    split
    · rename_i hhot
      split
      · split
        · simp [tierInvariant]
        · simp [tierInvariant, hhot]
      · exact hx
    · exact hx

theorem promoteRecord_good : goodUpdater promoteRecord := by
  refine ⟨?_, ?_, ?_⟩
  · intro x; unfold promoteRecord; split <;> rfl
  · intro x hx; simp [promoteRecord, hx]
  · intro x hx; unfold promoteRecord
    split
    · simp [tierInvariant]
    · exact hx

theorem archiveRecord_good (reason : String) :
    goodUpdater (archiveRecord reason) := by
  refine ⟨?_, ?_, ?_⟩
  · intro x; unfold archiveRecord; split <;> rfl
  · intro x hx; simp [archiveRecord, hx]
  · intro x hx; unfold archiveRecord
    split
    · exact hx
    · simp [tierInvariant]

/-- Restricting a good per-record update to one record id is again a good
update. -/
theorem ifId_good (g : MemoryRecord → MemoryRecord) (id : Nat)
    (hg : goodUpdater g) :
    goodUpdater (fun r => if r.id = id then g r else r) := by
  obtain ⟨h1, h2, h3⟩ := hg
  refine ⟨?_, ?_, ?_⟩
  · intro x; by_cases h : x.id = id <;> simp [h, h1]
  · intro x hx; by_cases h : x.id = id
    · simpa [h] using h2 x hx
    · simp [h]
  · intro x hx; by_cases h : x.id = id
    · simpa [h] using h3 x hx
    · simpa [h] using hx

/-- Every Memory Lifecycle Manager operation is either a pointwise good
update of the store or the appending of a fresh HOT record whose id is
the current store length. -/
theorem applyOp_spec (store : List MemoryRecord) (op : MemOp) (now : Nat) :
    (∃ g, goodUpdater g ∧ applyOp store op now = store.map g) ∨
    (∃ r, applyOp store op now = store ++ [r] ∧ r.id = store.length ∧
      tierInvariant r = true ∧ r.tier = Tier.HOT) := by
  cases op with
  | ingestOp uid key value tags =>
      right
      refine ⟨_, rfl, rfl, ?_, rfl⟩
      simp [tierInvariant]
  | touchOp id =>
      exact Or.inl ⟨_, ifId_good _ id (touchRecord_good now), rfl⟩
  | promoteOp id =>
      exact Or.inl ⟨_, ifId_good _ id promoteRecord_good, rfl⟩
  | archiveOp id reason =>
      exact Or.inl ⟨_, ifId_good _ id (archiveRecord_good reason), rfl⟩
  | listOp t uid => exact Or.inl ⟨_, expireIfNeeded_good now, rfl⟩
  | searchOp t q => exact Or.inl ⟨_, expireIfNeeded_good now, rfl⟩

theorem applyOp_length (store : List MemoryRecord) (op : MemOp) (now : Nat) :
    store.length ≤ (applyOp store op now).length := by
  rcases applyOp_spec store op now with ⟨g, _, heq⟩ | ⟨r, heq, _, _, _⟩
  · simp [heq]
  · simp [heq]

theorem applyOp_id_surv (store : List MemoryRecord) (op : MemOp) (now : Nat)
    (r : MemoryRecord) (hr : r ∈ store) :
    ∃ x ∈ applyOp store op now, x.id = r.id := by
  rcases applyOp_spec store op now with ⟨g, hg, heq⟩ | ⟨s, heq, _, _, _⟩
  · exact ⟨g r, by rw [heq]; exact List.mem_map_of_mem g hr, hg.1 r⟩
  · exact ⟨r, by rw [heq]; exact List.mem_append_left _ hr, rfl⟩

theorem applyOp_archive_mem (store : List MemoryRecord) (op : MemOp)
    (now : Nat) (r : MemoryRecord) (hr : r ∈ store)
    (ha : r.tier = Tier.ARCHIVE) : r ∈ applyOp store op now := by
  rcases applyOp_spec store op now with ⟨g, hg, heq⟩ | ⟨s, heq, _, _, _⟩
  · rw [heq]
    have : g r = r := hg.2.1 r ha
    rw [← this]
    exact List.mem_map_of_mem g hr
  · rw [heq]; exact List.mem_append_left _ hr

theorem applyOp_inv (store : List MemoryRecord) (op : MemOp) (now : Nat)
    (hinv : ∀ x ∈ store, tierInvariant x = true) :
    ∀ x ∈ applyOp store op now, tierInvariant x = true := by
  rcases applyOp_spec store op now with ⟨g, hg, heq⟩ | ⟨s, heq, _, hs, _⟩
  · intro x hx
    rw [heq] at hx
    rcases List.mem_map.mp hx with ⟨y, hy, rfl⟩
    exact hg.2.2 y (hinv y hy)
  · intro x hx
    rw [heq] at hx
    rcases List.mem_append.mp hx with h | h
    · exact hinv x h
    · rw [List.mem_singleton.mp h]; exact hs

/-- If every record carrying a given id is ARCHIVE and the id is below
the store length, one operation preserves both facts. -/
theorem applyOp_id_archived (store : List MemoryRecord) (op : MemOp)
    (now : Nat) (i : Nat)
    (h1 : ∀ x ∈ store, x.id = i → x.tier = Tier.ARCHIVE)
    (h2 : i < store.length) :
    (∀ x ∈ applyOp store op now, x.id = i → x.tier = Tier.ARCHIVE) ∧
      i < (applyOp store op now).length := by
  rcases applyOp_spec store op now with ⟨g, hg, heq⟩ | ⟨s, heq, hid, _, _⟩
  · constructor
    · intro x hx hxi
      rw [heq] at hx
      rcases List.mem_map.mp hx with ⟨y, hy, rfl⟩
      have hyi : y.id = i := by rw [← hg.1 y]; exact hxi
      have hya : y.tier = Tier.ARCHIVE := h1 y hy hyi
      rw [hg.2.1 y hya]; exact hya
    · calc i < store.length := h2
        _ ≤ (applyOp store op now).length := applyOp_length store op now
  · constructor
    · intro x hx hxi
      rw [heq] at hx
      rcases List.mem_append.mp hx with h | h
      · exact h1 x h hxi
      · rw [List.mem_singleton.mp h] at hxi
        rw [hid] at hxi
        exact absurd hxi.symm (Nat.ne_of_lt h2)
    · calc i < store.length := h2
        _ ≤ (applyOp store op now).length := applyOp_length store op now

theorem applyOps_length (ops : List (MemOp × Nat)) :
    ∀ store : List MemoryRecord, store.length ≤ (applyOps store ops).length := by
  induction ops with
  | nil => intro store; exact Nat.le_refl _
  | cons p ops ih =>
      intro store
      calc store.length ≤ (applyOp store p.1 p.2).length :=
            applyOp_length store p.1 p.2
        _ ≤ (applyOps (applyOp store p.1 p.2) ops).length := ih _
        _ = (applyOps store (p :: ops)).length := by
            simp [applyOps, List.foldl_cons]

theorem applyOps_id_surv (ops : List (MemOp × Nat)) :
    ∀ store : List MemoryRecord, ∀ r ∈ store,
      ∃ x ∈ applyOps store ops, x.id = r.id := by
  induction ops with
  | nil => intro store r hr; exact ⟨r, hr, rfl⟩
  | cons p ops ih =>
      intro store r hr
      rcases applyOp_id_surv store p.1 p.2 r hr with ⟨y, hy, hyid⟩
      rcases ih (applyOp store p.1 p.2) y hy with ⟨x, hx, hxid⟩
      exact ⟨x, by simpa [applyOps, List.foldl_cons] using hx, hxid.trans hyid⟩

theorem applyOps_archive_mem (ops : List (MemOp × Nat)) :
    ∀ store : List MemoryRecord, ∀ r ∈ store, r.tier = Tier.ARCHIVE →
      r ∈ applyOps store ops := by
  induction ops with
  | nil => intro store r hr _; exact hr
  | cons p ops ih =>
      intro store r hr ha
      have h1 : r ∈ applyOp store p.1 p.2 :=
        applyOp_archive_mem store p.1 p.2 r hr ha
      simpa [applyOps, List.foldl_cons] using ih (applyOp store p.1 p.2) r h1 ha

theorem applyOps_inv (ops : List (MemOp × Nat)) :
    ∀ store : List MemoryRecord,
      (∀ x ∈ store, tierInvariant x = true) →
      ∀ x ∈ applyOps store ops, tierInvariant x = true := by
  induction ops with
  | nil => intro store h; exact h
  | cons p ops ih =>
      intro store h x hx
      exact ih (applyOp store p.1 p.2) (applyOp_inv store p.1 p.2 h) x
        (by simpa [applyOps, List.foldl_cons] using hx)

theorem applyOps_id_archived (ops : List (MemOp × Nat)) :
    ∀ store : List MemoryRecord, ∀ i : Nat,
      (∀ x ∈ store, x.id = i → x.tier = Tier.ARCHIVE) → i < store.length →
      ∀ x ∈ applyOps store ops, x.id = i → x.tier = Tier.ARCHIVE := by
  induction ops with
  | nil => intro store i h1 _ x hx; exact h1 x hx
  | cons p ops ih =>
      intro store i h1 h2 x hx
      rcases applyOp_id_archived store p.1 p.2 i h1 h2 with ⟨h3, h4⟩
      exact ih (applyOp store p.1 p.2) i h3 h4 x
        (by simpa [applyOps, List.foldl_cons] using hx)

/-- After the inline-expiry pass of a read path, no record is still an
expired HOT record. -/
theorem expireIfNeeded_not_expired (now : Nat) (y : MemoryRecord) :
    isExpired now (expireIfNeeded now y) = false := by
  unfold expireIfNeeded
  split
  · simp [isExpired]
  · rename_i h
    simpa using h

/-- C4: when a HOT record is past its TTL at access time, the accessing
`list`/`search` call itself performs inline expiry: the result sets of
`list(HOT, ...)` and `search(HOT, ...)` contain no expired record, the
record is in the post-call store as ARCHIVE with
`archived_reason = "expired"`, and no subsequent `list(HOT, ...)` result
— after any further sequence of manager operations — contains a record
with its id. -/
theorem hot_inline_expiry (store : List MemoryRecord) (now : Nat)
    (uid q : String) (r : MemoryRecord)
    (hmem : r ∈ store) (hexp : isExpired now r = true)
    (hids : ∀ x ∈ store, x.id = r.id → x = r)
    (hbound : r.id < store.length) :
    (∀ x ∈ (listTier store Tier.HOT uid now).1, isExpired now x = false) ∧
      (∀ x ∈ (searchTier store Tier.HOT q now).1, isExpired now x = false) ∧
      expireIfNeeded now r ∈ (listTier store Tier.HOT uid now).2 ∧
      (expireIfNeeded now r).tier = Tier.ARCHIVE ∧
      (expireIfNeeded now r).archived_reason = some "expired" ∧
      (∀ ops : List (MemOp × Nat), ∀ uid2 : String, ∀ now2 : Nat,
        ∀ x ∈ (listTier (applyOps (listTier store Tier.HOT uid now).2 ops)
                 Tier.HOT uid2 now2).1, x.id ≠ r.id) := by
  have hne : ∀ x ∈ inlineExpiry now store, isExpired now x = false := by
    intro x hx
    rcases List.mem_map.mp hx with ⟨y, _, rfl⟩
    exact expireIfNeeded_not_expired now y
  have e1 : (listTier store Tier.HOT uid now).1 =
      (inlineExpiry now store).filter
        (fun x => x.tier = Tier.HOT && x.user_id = uid) := rfl
  have e2 : (listTier store Tier.HOT uid now).2 = inlineExpiry now store := rfl
  have e3 : (searchTier store Tier.HOT q now).1 =
      (inlineExpiry now store).filter
        (fun x => x.tier = Tier.HOT && (x.key = q || x.tags.contains q)) := rfl
  refine ⟨?_, ?_, ?_, ?_, ?_, ?_⟩
  · intro x hx
    rw [e1] at hx
    exact hne x (List.mem_filter.mp hx).1
  · intro x hx
    rw [e3] at hx
    exact hne x (List.mem_filter.mp hx).1
  · rw [e2]
    exact List.mem_map_of_mem _ hmem
  · simp [expireIfNeeded, hexp]
  · simp [expireIfNeeded, hexp]
  · intro ops uid2 now2 x hx hxid
    have h1 : ∀ y ∈ inlineExpiry now store, y.id = r.id →
        y.tier = Tier.ARCHIVE := by
      intro y hy hyid
      rcases List.mem_map.mp hy with ⟨z, hz, rfl⟩
      have hzid : z.id = r.id := by
        rw [← (expireIfNeeded_good now).1 z]; exact hyid
      have hzr : z = r := hids z hz hzid
      subst hzr
      simp [expireIfNeeded, hexp]
    have h2 : r.id < (inlineExpiry now store).length := by
      simpa [inlineExpiry] using hbound
    have h3 := applyOps_id_archived ops (inlineExpiry now store) r.id h1 h2
    rw [e2] at hx
    have e4 : (listTier (applyOps (inlineExpiry now store) ops)
        Tier.HOT uid2 now2).1 =
        (inlineExpiry now2 (applyOps (inlineExpiry now store) ops)).filter
          (fun x => x.tier = Tier.HOT && x.user_id = uid2) := rfl
    rw [e4] at hx
    rcases List.mem_filter.mp hx with ⟨hx1, hx2⟩
    rcases List.mem_map.mp hx1 with ⟨y, hy, rfl⟩
    have hyid : y.id = r.id := by
      rw [← (expireIfNeeded_good now2).1 y]; exact hxid
    have hya : y.tier = Tier.ARCHIVE := h3 y hy hyid
    rw [(expireIfNeeded_good now2).2.1 y hya] at hx2
    simp [hya] at hx2

/-- An expired HOT record, used to witness the inline expiry theorem. -/
def sampleExpiredRecord : MemoryRecord :=
  { id := 0, user_id := "default_user", key := "shift",
    value := "09:00-18:00", tags := [], created_at := 0,
    expires_at := some 604800, archived_reason := none,
    renewed_count := 0, tier := Tier.HOT }

/-- Witness for C4: a singleton store holding a HOT record whose TTL
elapsed; the accessing call archives it with reason `"expired"`. -/
theorem hot_inline_expiry_witness :
    (expireIfNeeded 604801 sampleExpiredRecord).tier = Tier.ARCHIVE ∧
      (expireIfNeeded 604801 sampleExpiredRecord).archived_reason =
        some "expired" :=
  have h := hot_inline_expiry [sampleExpiredRecord] 604801 "default_user"
    "shift" sampleExpiredRecord (by simp) (by decide)
    (by intro x hx _; simpa using hx) (by decide)
  ⟨h.2.2.2.1, h.2.2.2.2.1⟩

/-- C6: over any sequence of Memory Lifecycle Manager operations the tier
invariant is preserved for every record of the store, and no record is
ever physically deleted: the store never shrinks, every id survives, and
an ARCHIVE record remains in the store untouched (terminal tombstone). -/
theorem memory_ops_preserve_invariant (store : List MemoryRecord)
    (ops : List (MemOp × Nat))
    (hinv : ∀ x ∈ store, tierInvariant x = true) :
    (∀ x ∈ applyOps store ops, tierInvariant x = true) ∧
      store.length ≤ (applyOps store ops).length ∧
      (∀ r ∈ store, ∃ x ∈ applyOps store ops, x.id = r.id) ∧
      (∀ r ∈ store, r.tier = Tier.ARCHIVE → r ∈ applyOps store ops) :=
  ⟨applyOps_inv ops store hinv, applyOps_length ops store,
   fun r hr => applyOps_id_surv ops store r hr,
   fun r hr ha => applyOps_archive_mem ops store r hr ha⟩

/-- An ARCHIVE record, used to witness that archival is terminal. -/
def sampleArchivedRecord : MemoryRecord :=
  { id := 0, user_id := "default_user", key := "old", value := "v",
    tags := [], created_at := 0, expires_at := none,
    archived_reason := some "substituido", renewed_count := 0,
    tier := Tier.ARCHIVE }

/-- Witness for C6: an ARCHIVE record survives, untouched, an ingest
followed by a touch of its id — it is never physically deleted. -/
theorem memory_ops_preserve_invariant_witness :
    sampleArchivedRecord ∈ applyOps [sampleArchivedRecord]
      [(MemOp.ingestOp "default_user" "shift" "09:00-18:00" [], 0),
       (MemOp.touchOp 0, 100)] :=
  (memory_ops_preserve_invariant [sampleArchivedRecord]
    [(MemOp.ingestOp "default_user" "shift" "09:00-18:00" [], 0),
     (MemOp.touchOp 0, 100)]
    (by decide)).2.2.2 sampleArchivedRecord (by simp) rfl

/-- C8: `ingest` creates a HOT record with `expires_at = now + 7d` and
`renewed_count = 0`; `touch` on a HOT, unexpired record renews
`expires_at` to `now + 7d` and increments `renewed_count` by exactly 1,
while `touch` on a HOT record with `now > expires_at` performs inline
expiry instead. -/
theorem ingest_touch_renewal (store : List MemoryRecord)
    (uid key value : String) (tags : List String) (now : Nat)
    (r : MemoryRecord) (e now2 : Nat)
    (hhot : r.tier = Tier.HOT) (he : r.expires_at = some e) :
    (ingest store uid key value tags now).1.tier = Tier.HOT ∧
      (ingest store uid key value tags now).1.expires_at =
        some (now + sevenDays) ∧
      (ingest store uid key value tags now).1.renewed_count = 0 ∧
      (¬ e < now2 → touchRecord now2 r =
        { r with expires_at := some (now2 + sevenDays),
                 renewed_count := r.renewed_count + 1 }) ∧
      (e < now2 → touchRecord now2 r =
        { r with tier := Tier.ARCHIVE, archived_reason := some "expired" }) ∧
      (r ∈ store → touchRecord now2 r ∈ touch store r.id now2) := by
  refine ⟨rfl, rfl, rfl, ?_, ?_, ?_⟩
  · intro hle; simp [touchRecord, hhot, he, hle]
  · intro hlt; simp [touchRecord, hhot, he, hlt]
  · intro hmem
    have h : (fun x => if x.id = r.id then touchRecord now2 x else x) r =
        touchRecord now2 r := by simp
    rw [touch, ← h]
    exact List.mem_map_of_mem _ hmem

/-- A fresh HOT record on day 0, used to witness the renewal theorem. -/
def sampleFreshRecord : MemoryRecord :=
  { id := 0, user_id := "default_user", key := "shift",
    value := "09:00-18:00", tags := [], created_at := 0,
    expires_at := some 604800, archived_reason := none,
    renewed_count := 0, tier := Tier.HOT }

/-- Witness for C8: touching the day-0 record on day 6 (before its TTL)
renews `expires_at` to `now + 7d` and bumps `renewed_count` to 1. -/
theorem ingest_touch_renewal_witness :
    touchRecord 518400 sampleFreshRecord =
      { sampleFreshRecord with expires_at := some (518400 + sevenDays),
                               renewed_count := 1 } :=
  (ingest_touch_renewal [] "default_user" "shift" "09:00-18:00" [] 0
    sampleFreshRecord 604800 518400 rfl rfl).2.2.2.1 (by decide)

/-! ## Skill Store -/

/-- One ordered step of a Skill Record (spec §3; rendered as
`step.order`/`step.description` by `SkillCard.js`). -/
structure SkillStep where
  order : Nat
  action : String
  description : String
deriving DecidableEq, Repr

/-- A Skill Record (spec §3); `SkillCard.js` renders exactly these
fields (`name`, `description`, `when_to_use`, `steps`, `version`,
`is_enabled`, `tags`). -/
structure Skill where
  id : Nat
  name : String
  description : String
  when_to_use : String
  steps : List SkillStep
  version : Nat
  is_enabled : Bool
  tags : List String
deriving DecidableEq, Repr

/-- A partial update to a skill; `none` fields are left unchanged. -/
structure SkillPatch where
  name : Option String
  description : Option String
  when_to_use : Option String
  steps : Option (List SkillStep)
  tags : Option (List String)
  is_enabled : Option Bool
deriving DecidableEq, Repr

/-- Error raised on an unknown skill id (spec §7 taxonomy). -/
inductive SkillError
  | NotFoundError
deriving DecidableEq, Repr

/-- Modelled from the spec: `create(name, description, when_to_use,
steps)` of spec §4.5 — returns a `Skill` with `version = 1`; the backend
module `modules/skills.py` is absent from the snapshot. -/
def createSkill (store : List Skill)
    (name description when_to_use : String) (steps : List SkillStep) :
    Skill × List Skill :=
  let s : Skill :=
    { id := store.length, name := name, description := description,
      when_to_use := when_to_use, steps := steps, version := 1,
      is_enabled := true, tags := [] }
  (s, store ++ [s])

/-- Modelled from the spec: the effect of `update(id, patch)` on the
patched skill (spec §4.5) — any content change increments `version` by
exactly one, whatever the fields changed; previous content is not
retained. -/
def applyPatch (p : SkillPatch) (s : Skill) : Skill :=
  { s with name := p.name.getD s.name,
           description := p.description.getD s.description,
           when_to_use := p.when_to_use.getD s.when_to_use,
           steps := p.steps.getD s.steps,
           tags := p.tags.getD s.tags,
           is_enabled := p.is_enabled.getD s.is_enabled,
           version := s.version + 1 }

/-- Modelled from the spec: `update(id, patch)` of spec §4.5; fails with
`NotFoundError` on an unknown id, otherwise returns the patched skill
and the resulting store. -/
def updateSkill (store : List Skill) (id : Nat) (p : SkillPatch) :
    Except SkillError (Skill × List Skill) :=
  match store.find? (fun s => s.id = id) with
  | none => Except.error SkillError.NotFoundError
  | some s =>
      Except.ok (applyPatch p s,
        store.map (fun r => if r.id = id then applyPatch p r else r))

/-- Modelled from the spec: `disable(id)` of spec §4.5 — sets
`is_enabled = false` and nothing else; a soft delete that never removes
the record. -/
def disableSkill (store : List Skill) (id : Nat) : List Skill :=
  store.map (fun r => if r.id = id then { r with is_enabled := false } else r)

/-- C7: `create` returns a skill with `version = 1`; every successful
`update` goes through `applyPatch`, which increments `version` by
exactly 1 regardless of which fields the patch touches, so the version
advances strictly monotonically; `disable` only flips `is_enabled` to
`false`, keeps every record (same store length) and leaves all other
skills untouched. -/
theorem skill_versioning (store : List Skill)
    (name description when_to_use : String) (steps : List SkillStep)
    (p : SkillPatch) (s : Skill) (id : Nat) (s2 : Skill)
    (store2 : List Skill)
    (hup : updateSkill store id p = Except.ok (s2, store2)) :
    (createSkill store name description when_to_use steps).1.version = 1 ∧
      (applyPatch p s).version = s.version + 1 ∧
      s.version < (applyPatch p s).version ∧
      (∃ s0 ∈ store, s0.id = id ∧ s2 = applyPatch p s0 ∧
        s2.version = s0.version + 1) ∧
      (disableSkill store id).length = store.length ∧
      (∀ r ∈ store,
        (if r.id = id then { r with is_enabled := false } else r) ∈
          disableSkill store id) := by
  refine ⟨rfl, rfl, Nat.lt_succ_self _, ?_, by simp [disableSkill], ?_⟩
  · unfold updateSkill at hup
    rcases hfind : store.find? (fun s => s.id = id) with _ | s0
    · rw [hfind] at hup; cases hup
    · rw [hfind] at hup
      have h1 : s2 = applyPatch p s0 := by
        injection hup with h
        exact (congrArg Prod.fst h).symm
      have h2 : s0 ∈ store := List.mem_of_find?_eq_some hfind
      have h3 : s0.id = id := by
        have := List.find?_some hfind
        simpa using this
      exact ⟨s0, h2, h3, h1, by rw [h1]; rfl⟩
  · intro r hr
    exact List.mem_map_of_mem _ hr

/-- Witness for C7: on a store holding one freshly created skill, an
empty patch update yields version 2 while creating yields version 1. -/
theorem skill_versioning_witness :
    (createSkill [] "daily_task_summary" "Cria sumário diário de tarefas"
        "Fim do dia" []).1.version = 1 ∧
      ∃ s0 ∈ (createSkill [] "daily_task_summary"
          "Cria sumário diário de tarefas" "Fim do dia" []).2,
        s0.id = 0 ∧
          (applyPatch
            { name := none, description := none, when_to_use := none,
              steps := none, tags := none, is_enabled := none }
            (createSkill [] "daily_task_summary"
              "Cria sumário diário de tarefas" "Fim do dia" []).1) =
            applyPatch
              { name := none, description := none, when_to_use := none,
                steps := none, tags := none, is_enabled := none } s0 ∧
          (applyPatch
            { name := none, description := none, when_to_use := none,
              steps := none, tags := none, is_enabled := none }
            (createSkill [] "daily_task_summary"
              "Cria sumário diário de tarefas" "Fim do dia" []).1).version =
            s0.version + 1 :=
  have h := skill_versioning
    (createSkill [] "daily_task_summary" "Cria sumário diário de tarefas"
      "Fim do dia" []).2
    "daily_task_summary" "Cria sumário diário de tarefas" "Fim do dia" []
    { name := none, description := none, when_to_use := none,
      steps := none, tags := none, is_enabled := none }
    (createSkill [] "daily_task_summary" "Cria sumário diário de tarefas"
      "Fim do dia" []).1
    0
    (applyPatch
      { name := none, description := none, when_to_use := none,
        steps := none, tags := none, is_enabled := none }
      (createSkill [] "daily_task_summary" "Cria sumário diário de tarefas"
        "Fim do dia" []).1)
    ((createSkill [] "daily_task_summary" "Cria sumário diário de tarefas"
        "Fim do dia" []).2.map
      (fun r => if r.id = 0 then
        applyPatch
          { name := none, description := none, when_to_use := none,
            steps := none, tags := none, is_enabled := none } r
        else r))
    (by rfl)
  ⟨h.1, h.2.2.2.1⟩

/-! ## PII Redactor -/

/-- The space character, the word separator of the redactor. -/
def spaceChar : Char := Char.ofNat 32

/-- Split a character list into the (possibly empty) words between
spaces; always returns at least one word. -/
def splitWords : List Char → List (List Char)
  | [] => [[]]
  | c :: cs =>
    match splitWords cs with
    | [] => [[c]]
    | w :: ws => if c = spaceChar then [] :: w :: ws else (c :: w) :: ws

/-- Join words back with single spaces; inverse of `splitWords` on
space-free word lists. -/
def joinWords : List (List Char) → List Char
  | [] => []
  | [w] => w
  | w :: w2 :: ws => w ++ spaceChar :: joinWords (w2 :: ws)

/-- Characters admitted inside a phone- or card-like digit sequence:
digits and the usual separators. -/
def isDigitSep (c : Char) : Bool :=
  c.isDigit || c = '-' || c = '+' || c = '(' || c = ')' || c = '.'

/-- Number of digits of a word. -/
def digitCount (w : List Char) : Nat := (w.filter Char.isDigit).length

/-- Modelled from the spec: email detection (spec §4.1, "email
addresses"); the backend PII masker is absent from the snapshot. -/
def isEmailToken (w : List Char) : Bool := w.contains '@'

/-- Modelled from the spec: credit-card-like digit sequences — 13 to 19
digits with optional separators, the length heuristic of spec §4.1. -/
def isCardToken (w : List Char) : Bool :=
  w.all isDigitSep && decide (13 ≤ digitCount w) && decide (digitCount w ≤ 19)

/-- Modelled from the spec: phone-number-like digit sequences — a
configurable minimum digit run (9 here) allowing separators
(spec §4.1). -/
def isPhoneToken (w : List Char) : Bool :=
  w.all isDigitSep && decide (9 ≤ digitCount w)

/-- The password-looking key-value labels of spec §4.1
(`password=...`, `pwd:...`). -/
def passwordLabels : List (List Char) :=
  ["password=".data, "password:".data, "pwd=".data, "pwd:".data]

/-- Modelled from the spec: password-looking key-value pairs
(spec §4.1). -/
def isPasswordToken (w : List Char) : Bool :=
  passwordLabels.any (fun p => startsWith p w)

/-- The API-key/token labels of spec §4.1 (`key`, `token`, `secret`). -/
def tokenLabels : List (List Char) :=
  ["key=".data, "key:".data, "token=".data, "token:".data,
   "secret=".data, "secret:".data]

/-- Modelled from the spec: API-key/token-looking strings — a long run
(at least 8 characters here) following a `key`/`token`/`secret` label
(spec §4.1). -/
def isSecretToken (w : List Char) : Bool :=
  tokenLabels.any (fun p => startsWith p w && decide (p.length + 8 ≤ w.length))

/-- Modelled from the spec: redaction of one word — each sensitive match
is replaced by its placeholder (spec §4.1); the backend PII masker is
absent from the snapshot. -/
def redactTokenChars (w : List Char) : List Char :=
  if isEmailToken w then "[EMAIL_REDACTED]".data
  else if isCardToken w then "[CARD_REDACTED]".data
  else if isPhoneToken w then "[PHONE_REDACTED]".data
  else if isPasswordToken w then "[PASSWORD_REDACTED]".data
  else if isSecretToken w then "[TOKEN_REDACTED]".data
  else w

/-- Modelled from the spec: `redact(text) -> text'` of spec §4.1 — pure
and deterministic, replacing non-overlapping sensitive matches
independently of their order of appearance. -/
def redact (s : String) : String :=
  String.mk (joinWords ((splitWords s.data).map redactTokenChars))

theorem splitWords_ne_nil (cs : List Char) : splitWords cs ≠ [] := by
  cases cs with
  | nil => simp [splitWords]
  | cons c cs =>
    unfold splitWords
    cases splitWords cs with
    | nil => simp
    | cons w ws =>
      by_cases hc : c = spaceChar
      · simp [hc]
      · simp [hc]

theorem splitWords_exists (cs : List Char) :
    ∃ w0 ws, splitWords cs = w0 :: ws := by
  cases h : splitWords cs with
  | nil => exact absurd h (splitWords_ne_nil cs)
  | cons a b => exact ⟨a, b, rfl⟩

theorem splitWords_cons (c : Char) (cs : List Char) (w0 : List Char)
    (ws : List (List Char)) (hsw : splitWords cs = w0 :: ws) :
    splitWords (c :: cs) =
      if c = spaceChar then [] :: w0 :: ws else (c :: w0) :: ws := by
  unfold splitWords
  rw [hsw]

theorem splitWords_no_space (cs : List Char) :
    ∀ w ∈ splitWords cs, spaceChar ∉ w := by
  induction cs with
  | nil =>
    intro w hw
    simp [splitWords] at hw
    subst hw
    simp
  | cons c cs ih =>
    intro w hw
    obtain ⟨w0, ws, hsw⟩ := splitWords_exists cs
    rw [splitWords_cons c cs w0 ws hsw] at hw
    have hmem : ∀ x ∈ w0 :: ws, spaceChar ∉ x := by
      intro x hx
      exact ih x (by rw [hsw]; exact hx)
    by_cases hc : c = spaceChar
    · rw [if_pos hc] at hw
      rcases List.mem_cons.mp hw with hw | hw
      · subst hw; simp
      · exact hmem w hw
    · rw [if_neg hc] at hw
      rcases List.mem_cons.mp hw with hw | hw
      · subst hw
        intro hin
        rcases List.mem_cons.mp hin with h | h
        · exact hc h.symm
        · exact hmem w0 (List.mem_cons_self w0 ws) h
      · exact hmem w (List.mem_cons_of_mem w0 hw)

theorem splitWords_space_cons (r : List Char) :
    splitWords (spaceChar :: r) = [] :: splitWords r := by
  obtain ⟨w0, ws, hsw⟩ := splitWords_exists r
  rw [splitWords_cons spaceChar r w0 ws hsw, if_pos rfl, hsw]

theorem splitWords_append_word (w : List Char) :
    ∀ cs w0 ws, spaceChar ∉ w → splitWords cs = w0 :: ws →
      splitWords (w ++ cs) = (w ++ w0) :: ws := by
  induction w with
  | nil => intro cs w0 ws _ h; simpa using h
  | cons c w ih =>
    intro cs w0 ws hsp h
    have hc : ¬ c = spaceChar := by
      intro hc
      exact hsp (by rw [hc]; exact List.mem_cons_self _ _)
    have h2 : splitWords (w ++ cs) = (w ++ w0) :: ws :=
      ih cs w0 ws (fun hmem => hsp (List.mem_cons_of_mem _ hmem)) h
    rw [List.cons_append, splitWords_cons c (w ++ cs) (w ++ w0) ws h2,
      if_neg hc, List.cons_append]

/-- `splitWords` is a left inverse of `joinWords` on nonempty lists of
space-free words. -/
theorem splitWords_joinWords (l : List (List Char)) (hne : l ≠ [])
    (hsp : ∀ w ∈ l, spaceChar ∉ w) : splitWords (joinWords l) = l := by
  induction l with
  | nil => exact absurd rfl hne
  | cons w l ih =>
    cases l with
    | nil =>
      have h : splitWords ([] : List Char) = [] :: [] := rfl
      have h2 := splitWords_append_word w [] [] []
        (hsp w (List.mem_cons_self _ _)) h
      simpa [joinWords] using h2
    | cons w2 l2 =>
      have hjw : joinWords (w :: w2 :: l2) =
          w ++ spaceChar :: joinWords (w2 :: l2) := rfl
      have hih : splitWords (joinWords (w2 :: l2)) = w2 :: l2 :=
        ih (by simp) (fun x hx => hsp x (List.mem_cons_of_mem _ hx))
      have hsc : splitWords (spaceChar :: joinWords (w2 :: l2)) =
          [] :: w2 :: l2 := by rw [splitWords_space_cons, hih]
      have h2 := splitWords_append_word w
        (spaceChar :: joinWords (w2 :: l2)) [] (w2 :: l2)
        (hsp w (List.mem_cons_self _ _)) hsc
      simpa [hjw] using h2

/-- A redacted word contains no space: either it is the original
space-free word, or it is one of the space-free placeholders. -/
theorem redactTokenChars_no_space (w : List Char) (h : spaceChar ∉ w) :
    spaceChar ∉ redactTokenChars w := by
  unfold redactTokenChars
  split
  · decide
  split
  · decide
  split
  · decide
  split
  · decide
  split
  · decide
  · exact h

/-- Redacting a single word is idempotent: every placeholder matches
none of the sensitive patterns. -/
theorem redactTokenChars_idem (w : List Char) :
    redactTokenChars (redactTokenChars w) = redactTokenChars w := by
  by_cases h1 : isEmailToken w = true
  · have e : redactTokenChars w = "[EMAIL_REDACTED]".data := by
      simp [redactTokenChars, h1]
    rw [e]
    decide
  · by_cases h2 : isCardToken w = true
    · have e : redactTokenChars w = "[CARD_REDACTED]".data := by
        simp [redactTokenChars, h1, h2]
      rw [e]
      decide
    · by_cases h3 : isPhoneToken w = true
      · have e : redactTokenChars w = "[PHONE_REDACTED]".data := by
          simp [redactTokenChars, h1, h2, h3]
        rw [e]
        decide
      · by_cases h4 : isPasswordToken w = true
        · have e : redactTokenChars w = "[PASSWORD_REDACTED]".data := by
            simp [redactTokenChars, h1, h2, h3, h4]
          rw [e]
          decide
        · by_cases h5 : isSecretToken w = true
          · have e : redactTokenChars w = "[TOKEN_REDACTED]".data := by
              simp [redactTokenChars, h1, h2, h3, h4, h5]
            rw [e]
            decide
          · have e : redactTokenChars w = w := by
              simp [redactTokenChars, h1, h2, h3, h4, h5]
            rw [e]
            exact e

/-- C5: `redact` is idempotent — `redact (redact x) = redact x` for every
input text; redacting already-redacted text is a no-op. -/
theorem redact_idem (s : String) : redact (redact s) = redact s := by
  unfold redact
  have hl1 : (String.mk (joinWords
      ((splitWords s.data).map redactTokenChars))).data =
      joinWords ((splitWords s.data).map redactTokenChars) := rfl
  rw [hl1]
  have hne : (splitWords s.data).map redactTokenChars ≠ [] := by
    intro h
    exact splitWords_ne_nil s.data (List.map_eq_nil_iff.mp h)
  have hsp : ∀ w ∈ (splitWords s.data).map redactTokenChars,
      spaceChar ∉ w := by
    intro w hw
    rcases List.mem_map.mp hw with ⟨y, hy, rfl⟩
    exact redactTokenChars_no_space y (splitWords_no_space s.data y hy)
  rw [splitWords_joinWords _ hne hsp, List.map_map]
  have hff : redactTokenChars ∘ redactTokenChars = redactTokenChars :=
    funext redactTokenChars_idem
  rw [hff]

/-! ## Chat page (frontend, translated from `Chat.js`) -/

/-- The `proposed_action` object handed to the approval dialog
(`Chat.js`: `pendingApproval.action_type`, `pendingApproval.payload`). -/
structure ProposedAction where
  action_type : String
  payload : String
deriving DecidableEq, Repr

/-- One entry of the `messages` state array of `Chat.js`. -/
structure ChatMessage where
  role : String
  content : String
  skills_used : List String
  requires_approval : Bool
deriving DecidableEq, Repr

/-- The component state of the `Chat` function of `Chat.js`: the five
`useState` hooks. -/
structure ChatState where
  messages : List ChatMessage
  input : String
  loading : Bool
  permissionLevel : String
  pendingApproval : Option ProposedAction
deriving DecidableEq, Repr

/-- `const USER_ID = 'default_user'` of `Chat.js`. -/
def USER_ID : String := "default_user"

/-- The initial state of `Chat.js`: `useState([])`, `useState('')`,
`useState(false)`, `useState('EXECUTE_APPROVED')`, `useState(null)`. -/
def initialChatState : ChatState :=
  { messages := [], input := "", loading := false,
    permissionLevel := "EXECUTE_APPROVED", pendingApproval := none }

/-- The query parameters of the `POST /api/chat` request issued by
`sendMessage` in `Chat.js`. -/
structure ChatRequest where
  message : String
  user_id : String
  permission_level : String
deriving DecidableEq, Repr

/-- The fields of the backend response consumed by `sendMessage`
(`response.data.response`, `.skills_used`, `.requires_approval`,
`.proposed_action`). -/
structure ChatResponse where
  response : String
  skills_used : List String
  requires_approval : Bool
  proposed_action : Option ProposedAction
deriving DecidableEq, Repr

/-- The request `sendMessage` issues, if any: `Chat.js` returns early
when the trimmed input is empty or a request is already loading, and
otherwise posts `{message, user_id, permission_level}` as parameters. -/
def sendMessageRequest (st : ChatState) : Option ChatRequest :=
  if st.input.trim = "" || st.loading then none
  else some { message := st.input.trim, user_id := USER_ID,
              permission_level := st.permissionLevel }

/-- The user chat bubble appended by `sendMessage`. -/
def userBubble (content : String) : ChatMessage :=
  { role := "user", content := content, skills_used := [],
    requires_approval := false }

/-- The assistant chat bubble appended by `sendMessage` on success. -/
def assistantBubble (resp : ChatResponse) : ChatMessage :=
  { role := "assistant", content := resp.response,
    skills_used := resp.skills_used,
    requires_approval := resp.requires_approval }

/-- The error chat bubble appended by `sendMessage` on failure. -/
def errorBubble : ChatMessage :=
  { role := "error",
    content := "Erro ao comunicar com o sistema. Por favor, tente novamente.",
    skills_used := [], requires_approval := false }

/-- The state after one `sendMessage` call of `Chat.js`; `outcome` is
`some resp` when the awaited POST resolves and `none` when it throws.
On entry the user message is appended and `loading` set; on success the
assistant message is appended and, when `requires_approval` and a
`proposed_action` are present, the approval dialog state is set; on
error the error bubble is appended; `finally` clears `loading`. -/
def sendMessageStep (st : ChatState) (outcome : Option ChatResponse) :
    ChatState :=
  if st.input.trim = "" || st.loading then st
  else
    let st1 : ChatState :=
      { st with
        input := "",
        messages := st.messages ++ [userBubble st.input.trim],
        loading := true }
    match outcome with
    | some resp =>
      let st2 : ChatState :=
        { st1 with messages := st1.messages ++ [assistantBubble resp] }
      let st3 : ChatState :=
        if resp.requires_approval && resp.proposed_action.isSome then
          { st2 with pendingApproval := resp.proposed_action }
        else st2
      { st3 with loading := false }
    | none =>
      { st1 with
        messages := st1.messages ++ [errorBubble],
        loading := false }

/-- The body of the `POST /api/approvals` request issued by
`handleApproval` in `Chat.js`. -/
structure ApprovalPost where
  user_id : String
  action_type : String
  payload : String
  approved : Bool
deriving DecidableEq, Repr

/-- The system message `handleApproval` appends on a successful POST. -/
def approvalResultMessage (action_type : String) (approved : Bool) :
    String :=
  if approved then
    "✅ Ação \"" ++ action_type ++ "\" aprovada e executada."
  else
    "❌ Ação \"" ++ action_type ++ "\" rejeitada."

/-- The system chat bubble appended by `handleApproval` on a successful
POST. -/
def approvalBubble (pa : ProposedAction) (approved : Bool) : ChatMessage :=
  { role := "system",
    content := approvalResultMessage pa.action_type approved,
    skills_used := [], requires_approval := false }

/-- One `handleApproval(approved)` call of `Chat.js`, returning the new
state and the request issued (if any); `postOk` tells whether the
awaited POST resolved.  `Chat.js` returns early when no approval is
pending; on success it appends a system message; on failure it only
logs to the console; `finally` always clears `pendingApproval`. -/
def handleApproval (st : ChatState) (approved : Bool) (postOk : Bool) :
    ChatState × Option ApprovalPost :=
  match st.pendingApproval with
  | none => (st, none)
  | some pa =>
    let st1 : ChatState :=
      if postOk then
        { st with messages := st.messages ++ [approvalBubble pa approved] }
      else st
    ({ st1 with pendingApproval := none },
     some { user_id := USER_ID, action_type := pa.action_type,
            payload := pa.payload, approved := approved })

/-- The events that can change the `Chat` component state. -/
inductive ChatEvent
  | setInput (s : String)
  | selectPermission (lvl : String)
  | sendOk (resp : ChatResponse)
  | sendErr
  | approval (approved : Bool) (postOk : Bool)

/-- The state transition of the `Chat` component for one event. -/
def chatStep (st : ChatState) (e : ChatEvent) : ChatState :=
  match e with
  | ChatEvent.setInput s => { st with input := s }
  | ChatEvent.selectPermission lvl => { st with permissionLevel := lvl }
  | ChatEvent.sendOk resp => sendMessageStep st (some resp)
  | ChatEvent.sendErr => sendMessageStep st none
  | ChatEvent.approval a p => (handleApproval st a p).1

/-- Whether an event is a use of the permission selector. -/
def isSelectPermission : ChatEvent → Bool
  | ChatEvent.selectPermission _ => true
  | _ => false

theorem sendMessageStep_permission (st : ChatState)
    (outcome : Option ChatResponse) :
    (sendMessageStep st outcome).permissionLevel = st.permissionLevel := by
  unfold sendMessageStep
  split
  · rfl
  · cases outcome with
    | some resp =>
      by_cases hra : (resp.requires_approval && resp.proposed_action.isSome)
          = true
      · simp [hra]
      · simp [hra]
    | none => rfl

theorem handleApproval_permission (st : ChatState) (a p : Bool) :
    (handleApproval st a p).1.permissionLevel = st.permissionLevel := by
  unfold handleApproval
  cases st.pendingApproval with
  | none => rfl
  | some pa =>
    by_cases hp : p = true
    · simp [hp]
    · simp [hp]

theorem chatStep_permission (st : ChatState) (e : ChatEvent)
    (h : isSelectPermission e = false) :
    (chatStep st e).permissionLevel = st.permissionLevel := by
  cases e with
  | setInput s => rfl
  | selectPermission lvl => cases h
  | sendOk resp => exact sendMessageStep_permission st (some resp)
  | sendErr => exact sendMessageStep_permission st none
  | approval a p => exact handleApproval_permission st a p

/-- C9: the `Chat` page initializes its permission level state to
`EXECUTE_APPROVED` — the most permissive of the three levels, not a
fail-safe default such as `READ_ONLY` — so after any sequence of events
that never touches the permission selector, the state still carries
`EXECUTE_APPROVED` and every chat request it issues is sent with
`permission_level = EXECUTE_APPROVED`. -/
theorem chat_default_permission (evs : List ChatEvent)
    (h : ∀ e ∈ evs, isSelectPermission e = false) :
    initialChatState.permissionLevel = "EXECUTE_APPROVED" ∧
      initialChatState.permissionLevel ≠ "READ_ONLY" ∧
      (evs.foldl chatStep initialChatState).permissionLevel =
        "EXECUTE_APPROVED" ∧
      (∀ req, sendMessageRequest (evs.foldl chatStep initialChatState) =
        some req → req.permission_level = "EXECUTE_APPROVED") := by
  have key : ∀ l : List ChatEvent, ∀ st : ChatState,
      (∀ e ∈ l, isSelectPermission e = false) →
      (l.foldl chatStep st).permissionLevel = st.permissionLevel := by
    intro l
    induction l with
    | nil => intro st _; rfl
    | cons e l ih =>
      intro st hl
      rw [List.foldl_cons,
        ih (chatStep st e) (fun x hx => hl x (List.mem_cons_of_mem e hx))]
      exact chatStep_permission st e (hl e (List.mem_cons_self e l))
  have hperm : (evs.foldl chatStep initialChatState).permissionLevel =
      "EXECUTE_APPROVED" := key evs initialChatState h
  refine ⟨rfl, by decide, hperm, ?_⟩
  intro req hreq
  unfold sendMessageRequest at hreq
  by_cases hcond : ((evs.foldl chatStep initialChatState).input.trim = "" ||
      (evs.foldl chatStep initialChatState).loading) = true
  · rw [if_pos hcond] at hreq
    cases hreq
  · rw [if_neg hcond] at hreq
    have h2 := (Option.some.injEq _ _).mp hreq
    rw [← h2]
    exact hperm

/-- Witness for C9: after typing a message and a round trip that fails,
the request level is still `EXECUTE_APPROVED`. -/
theorem chat_default_permission_witness :
    (∀ e ∈ [ChatEvent.setInput "ola", ChatEvent.sendErr],
      isSelectPermission e = false) ∧
      ([ChatEvent.setInput "ola", ChatEvent.sendErr].foldl chatStep
        initialChatState).permissionLevel = "EXECUTE_APPROVED" := by
  have h : ∀ e ∈ [ChatEvent.setInput "ola", ChatEvent.sendErr],
      isSelectPermission e = false := by
    intro e he
    rcases List.mem_cons.mp he with h | h
    · subst h; rfl
    · rcases List.mem_cons.mp h with h | h
      · subst h; rfl
      · cases h
  exact ⟨h, (chat_default_permission
    [ChatEvent.setInput "ola", ChatEvent.sendErr] h).2.2.1⟩

/-- `handleApproval` on a state with a pending approval, fully
evaluated. -/
theorem handleApproval_some (st : ChatState) (approved postOk : Bool)
    (pa : ProposedAction) (hsome : st.pendingApproval = some pa) :
    handleApproval st approved postOk =
      ({ (if postOk then
            { st with messages := st.messages ++
                [approvalBubble pa approved] }
          else st) with pendingApproval := none },
        some { user_id := USER_ID, action_type := pa.action_type,
               payload := pa.payload, approved := approved }) := by
  unfold handleApproval
  rw [hsome]

/-- C10: a `handleApproval` call with no pending approval performs no
POST and leaves the state untouched; with a pending approval it always
posts the approval body exactly once and clears `pendingApproval`
whether or not the POST succeeds — and when the POST fails the new
state is exactly the old state with `pendingApproval` cleared: the
dialog is dismissed with no retry and no error message appended. -/
theorem handleApproval_contract (st : ChatState) (approved postOk : Bool)
    (pa : ProposedAction) :
    (st.pendingApproval = none →
      handleApproval st approved postOk = (st, none)) ∧
      (st.pendingApproval = some pa →
        (handleApproval st approved postOk).1.pendingApproval = none ∧
          (handleApproval st approved postOk).2 =
            some { user_id := USER_ID, action_type := pa.action_type,
                   payload := pa.payload, approved := approved } ∧
          ((handleApproval st approved postOk).1.messages = st.messages ∨
            postOk = true) ∧
          (postOk = false → (handleApproval st approved postOk).1 =
            { st with pendingApproval := none })) := by
  constructor
  · intro hnone
    unfold handleApproval
    rw [hnone]
  · intro hsome
    rw [handleApproval_some st approved postOk pa hsome]
    refine ⟨rfl, rfl, ?_, ?_⟩
    · by_cases hp : postOk = true
      · exact Or.inr hp
      · left
        rw [if_neg hp]
    · intro hfail
      rw [hfail]
      rfl

/-- Witness for C10 on concrete states: with no pending approval nothing
happens; with a pending approval and a failing POST, the dialog is
dismissed and the state is the old one with the approval cleared. -/
theorem handleApproval_contract_witness :
    handleApproval initialChatState true true = (initialChatState, none) ∧
      (handleApproval
          { initialChatState with
            pendingApproval := some ⟨"create_note", "corpo"⟩ }
          true false).1 =
        { initialChatState with pendingApproval := none } := by
  constructor
  · exact (handleApproval_contract initialChatState true true
      ⟨"create_note", "corpo"⟩).1 rfl
  · have h := (handleApproval_contract
      { initialChatState with
        pendingApproval := some ⟨"create_note", "corpo"⟩ }
      true false ⟨"create_note", "corpo"⟩).2 rfl
    exact h.2.2.2 rfl
